import Mathlib

/-!
Verification of the x-thread-dl thread archival pipeline.

This file gives a shallow embedding of the three source modules
(`scraper.py`, `video_downloader.py`, `exceptions.py`) and proves the
behavioural claims about them.

Modelling conventions:
* Python dicts of known shape become structures whose fields are `Option`s
  (`none` models a missing key, matching `d.get(k)`).
* Raised exceptions become `Except Err` results; the constructors of `Err`
  mirror the exception classes of `exceptions.py`.
* Filesystem and network effects are modelled by an oracle environment
  (which paths can be created, which downloads succeed, ...) together with
  an explicit effect trace listing, in order, every directory creation,
  file write, media-engine invocation and log record the code performs.
* Python `list.sort(key=..., reverse=True)` is a stable in-place descending
  sort; it is modelled by a stable insertion sort, and the mutated list is
  returned as part of the function result.
-/

namespace XThreadDL

/-! ## Error taxonomy (exceptions.py) -/

/-- Reason carried by a `VideoDownloadError`, one per distinct raise site in
`video_downloader.py`. -/
inductive DLReason where
  | mkdirFailed
  | engineFailed
  | partialFile
  | missingOrEmpty
  | saveJsonFailed
deriving DecidableEq, Repr

/-- The exception classes of `exceptions.py` that the modelled code raises. -/
inductive Err where
  | validationError
  | scrapingError
  | videoDownloadError (reason : DLReason)
deriving DecidableEq, Repr

/-! ## Variant selector data model (scraper.py, `extract_video_url`) -/

/-- One variant record (a Python dict).  The code reads it only through
`.get('type')`, `.get('content_type')`, `.get('bitrate')`, `.get('src')`
and `.get('url')`; each field is `none` when the key is missing. -/
structure Variant where
  type : Option String
  content_type : Option String
  bitrate : Option Nat
  src : Option String
  url : Option String
deriving DecidableEq, Repr

/-- Model of `x.get('bitrate', 0)`: a missing bitrate is treated as 0. -/
def bitrate0 (v : Variant) : Nat := v.bitrate.getD 0

/-- Stable descending insert: `v` goes before the first element whose key is
less than or equal to its own.  In `sortByBitrateDesc` the inserted element
originally precedes everything already sorted, so placing it before
equal-key elements reproduces Python's stable sort order on ties. -/
def insertDesc (v : Variant) : List Variant → List Variant
  | [] => [v]
  | w :: t => if bitrate0 w ≤ bitrate0 v then v :: w :: t else w :: insertDesc v t

/-- Model of `variants.sort(key=lambda x: x.get('bitrate', 0), reverse=True)`:
a stable sort by descending bitrate (Python's sort is stable; with
`reverse=True` elements of equal key keep their original order). -/
def sortByBitrateDesc : List Variant → List Variant
  | [] => []
  | v :: t => insertDesc v (sortByBitrateDesc t)

/-- The selection body shared by the two record shapes
(scraper.py lines 252–266 with keys `type`/`src`, and lines 280–294 with keys
`content_type`/`url`; the two code blocks are textually identical up to these
key names, abstracted here as `getType`/`getUrl`).

Returns `(some r, vs')` when the code path returns `r` (itself an `Option`
because the final `best_variant.get(...)` may find no URL key), and
`(none, vs')` when it falls through (empty variant list).  `vs'` is the
state of the caller's variant list after the call: `mp4_variants` is a fresh
filtered list so sorting it leaves `vs` unchanged, but the fallback branch
sorts `vs` itself in place. -/
def selectVariants (getType getUrl : Variant → Option String) (vs : List Variant) :
    Option (Option String) × List Variant :=
  match sortByBitrateDesc (vs.filter (fun v => getType v == some "video/mp4")) with
  | best :: _ => (some (getUrl best), vs)
  | [] =>
    match sortByBitrateDesc vs with
    | best :: rest => (some (getUrl best), best :: rest)
    | [] => (none, vs)

/-- The `'variants'` value inside a video record: either an actual list or a
non-list value (iterating/filtering the latter raises, wrapped into a
`ScrapingError` by the broad `except` clause). -/
inductive VariantsContainer where
  | vlist (vs : List Variant)
  | notList
deriving DecidableEq, Repr

/-- The value at the `'video'` key of a tweet dict, as the guard
`tweet_data['video'] and 'variants' in tweet_data['video']` observes it. -/
inductive VideoVal where
  | falsy
  | noVariantsKey
  | withVariants (vc : VariantsContainer)
deriving DecidableEq, Repr

/-- The value at the `'video_info'` key of a mediaDetails entry, as the guard
`'variants' in media['video_info']` observes it. -/
inductive VideoInfoVal where
  | noVariantsKey
  | withVariants (vc : VariantsContainer)
deriving DecidableEq, Repr

/-- One entry of the `'mediaDetails'` list. -/
structure Media where
  type : Option String
  video_info : Option VideoInfoVal
deriving DecidableEq, Repr

/-- A tweet dict restricted to the keys `extract_video_url` reads. -/
structure TweetData where
  video : Option VideoVal
  mediaDetails : Option (List Media)
deriving DecidableEq, Repr

/-- Input to `extract_video_url`: `invalid` covers `not tweet_data or not
isinstance(tweet_data, dict)` (falsy or not a dict at all). -/
inductive TweetInput where
  | invalid
  | valid (td : TweetData)
deriving DecidableEq, Repr

/-- The `for media in tweet_data['mediaDetails']` loop (scraper.py 270–294).
Returns the loop's outcome together with the post-loop state of the media
list (an in-place sort may have reordered the returning entry's variants).
`.ok (none, ms)` means the loop ran to completion without returning. -/
def extractFromMediaDetails : List Media → Except Err (Option (Option String) × List Media)
  | [] => .ok (none, [])
  | m :: rest =>
    match m.type == some "video", m.video_info with
    | true, some (.withVariants .notList) => .error .scrapingError
    | true, some (.withVariants (.vlist ws)) =>
      match selectVariants Variant.content_type Variant.url ws with
      | (some r, ws2) =>
        .ok (some r, { m with video_info := some (.withVariants (.vlist ws2)) } :: rest)
      | (none, _) =>
        match extractFromMediaDetails rest with
        | .error e => .error e
        | .ok (r, rest2) => .ok (r, m :: rest2)
    | _, _ =>
      match extractFromMediaDetails rest with
      | .error e => .error e
      | .ok (r, rest2) => .ok (r, m :: rest2)

/-- The mediaDetails fallback of `extract_video_url` (scraper.py 269–297),
reached when the primary `'video'` shape did not return. -/
def extractFromMediaDetailsTop (td : TweetData) : Except Err (Option String × TweetInput) :=
  match td.mediaDetails with
  | none => .ok (none, .valid td)
  | some ms =>
    match extractFromMediaDetails ms with
    | .error e => .error e
    | .ok (some r, ms2) => .ok (r, .valid { td with mediaDetails := some ms2 })
    | .ok (none, ms2) => .ok (none, .valid { td with mediaDetails := some ms2 })

/-- Model of `Scraper.extract_video_url` (scraper.py 225–302).  The result pairs the
returned value (`none` = Python `None`, "no video") with the state of the
input record after the call, so that in-place mutation is observable. -/
def extract_video_url (t : TweetInput) : Except Err (Option String × TweetInput) :=
  match t with
  | .invalid => .error .scrapingError
  | .valid td =>
    match td.video with
    | some (.withVariants .notList) => .error .scrapingError
    | some (.withVariants (.vlist vs)) =>
      match selectVariants Variant.type Variant.src vs with
      | (some r, vs2) => .ok (r, .valid { td with video := some (.withVariants (.vlist vs2)) })
      | (none, _) => extractFromMediaDetailsTop td
    | _ => extractFromMediaDetailsTop td

/-! ## Remote fetch client (scraper.py, `fetch_tweet` / `fetch_tweet_replies`)

The Apify backend is abstracted as an oracle `backend : String → Option (List α)`
mapping the formatted URL to the dataset items of the finished run (`none`
models the actor call or dataset retrieval raising, which the code wraps in a
`ScrapingError`).  Each fetch result is paired with the number of backend
invocations performed, so "no network call is made" is statable. -/

/-- Predicate for `\w` of the tweet-id pattern (ASCII word characters). -/
def isWordChar (c : Char) : Bool := c.isAlphanum || c == '_'

/-- Whether `pat` is an initial segment of `s`. -/
def chStarts : List Char → List Char → Bool
  | [], _ => true
  | _ :: _, [] => false
  | a :: as, b :: bs => a == b && chStarts as bs

/-- Attempt to match `<host>\w+/status/(\d+)` at the start of `s`, returning
the captured digit group.  `\w+` cannot cross the `/`, so it is exactly the
maximal word-character run, and `(\d+)` is the maximal digit run. -/
def tryPatternAt (host : List Char) (s : List Char) : Option String :=
  if chStarts host s then
    let rest := s.drop host.length
    let w := rest.takeWhile isWordChar
    let rest1 := rest.dropWhile isWordChar
    if w ≠ [] && chStarts "/status/".data rest1 then
      let d := (rest1.drop 8).takeWhile Char.isDigit
      if d ≠ [] then some (String.mk d) else none
    else none
  else none

/-- Model of `re.search` of the pattern `(?:twitter\.com|x\.com)/\w+/status/(\d+)`:
scan start positions left to right, trying each alternative. -/
def searchTweetId : List Char → Option String
  | [] => none
  | c :: rest =>
    match tryPatternAt "twitter.com/".data (c :: rest) with
    | some g => some g
    | none =>
      match tryPatternAt "x.com/".data (c :: rest) with
      | some g => some g
      | none => searchTweetId rest

/-- Model of `Scraper._extract_tweet_id` (scraper.py 304–336): empty URL is a
validation failure; otherwise the regex search result (possibly `none`). -/
def extract_tweet_id (url : String) : Except Err (Option String) :=
  if url = "" then .error .validationError
  else .ok (searchTweetId url.data)

/-- Model of `Scraper._format_url` (scraper.py 338–359): empty URL is a validation
failure; a URL without an `http` scheme gets `https://` prepended. -/
def format_url (url : String) : Except Err String :=
  if url = "" then .error .validationError
  else if chStarts "http".data url.data then .ok url
  else .ok ("https://" ++ url)

/-- Model of `Scraper.fetch_tweet` (scraper.py 46–117).  The second component counts
backend invocations. -/
def fetch_tweet {α : Type} (url : String) (backend : String → Option (List α)) :
    Except Err α × Nat :=
  match extract_tweet_id url with
  | .error e => (.error e, 0)
  | .ok none => (.error .validationError, 0)
  | .ok (some _) =>
    match format_url url with
    | .error e => (.error e, 0)
    | .ok formatted_url =>
      match backend formatted_url with
      | none => (.error .scrapingError, 1)
      | some [] => (.error .scrapingError, 1)
      | some (x :: _) => (.ok x, 1)

/-- Model of `Scraper.fetch_tweet_replies` (scraper.py 119–190).  The `Bool` in the
result records whether the warning-level signal for an empty reply set was
emitted; the `Nat` counts backend invocations. -/
def fetch_tweet_replies {α : Type} (url : String) (limit : Int)
    (backend : String → Option (List α)) : Except Err (List α × Bool) × Nat :=
  if limit ≤ 0 then (.error .validationError, 0)
  else
    match format_url url with
    | .error e => (.error e, 0)
    | .ok formatted_url =>
      match backend formatted_url with
      | none => (.error .scrapingError, 1)
      | some [] => (.ok ([], true), 1)
      | some items => (.ok (items, false), 1)

/-! ## Persistence layer (video_downloader.py)

Filesystem and media-engine behaviour is abstracted as an oracle `Env`;
every function additionally returns the ordered trace of effects it
performed (directory creations, JSON writes, media-engine invocations, and
log records — the failure ledger of this code is its error/warning log). -/

/-- Oracle for the external world: which directory creations succeed, for
which URLs the media engine completes without raising, which output files
exist with non-zero size after the attempt, which `.part` artifacts exist,
and which JSON writes succeed. -/
structure Env where
  mkdirOk : String → Bool
  engineOk : String → Bool
  fileNonzero : String → Bool
  partExists : String → Bool
  saveOk : String → Bool

/-- An entry of the error/warning log (the failure ledger). -/
inductive LogEntry where
  | threadVideoFailed (reason : DLReason)
  | replySkippedNoId
  | replyTextFailed (rid : String)
  | replyVideoFailed (rid : String) (reason : DLReason)
deriving DecidableEq, Repr

/-- One observable effect of the persistence code, in execution order. -/
inductive Eff where
  | mkdir (path : String)
  | wroteJson (path : String)
  | engineCall (url : String) (path : String)
  | logError (e : LogEntry)
  | logWarning (e : LogEntry)
deriving DecidableEq, Repr

/-- Model of `os.path.join` for the two-component joins the code performs. -/
def pjoin (a b : String) : String := a ++ "/" ++ b

/-- Truthiness of an optional string (`if s:` in Python): present and
non-empty. -/
def truthy : Option String → Bool
  | none => false
  | some s => s != ""

/-- Model of `_save_json_content` (video_downloader.py 37–57): raises
`ValidationError` on falsy data or an empty path, else ensures the parent
directory and writes; any write failure is a `VideoDownloadError`.  The
parent-directory ensure and the write are folded into the `saveOk` oracle. -/
def save_json_content (env : Env) (data : Option String) (file_path : String) :
    Except Err Unit × List Eff :=
  if ¬ truthy data then (.error .validationError, [])
  else if file_path = "" then (.error .validationError, [])
  else if env.saveOk file_path then (.ok (), [Eff.wroteJson file_path])
  else (.error (.videoDownloadError .saveJsonFailed), [])

/-- Model of `download_video_content` (video_downloader.py 108–213): validates its
three string arguments, ensures the output directory, invokes the media
engine on `{output_dir}/{video_id}.mp4`, then verifies that the output file
exists with non-zero size; a missing/empty file is a failure, reported
differently when a leftover `.part` artifact is present.  No retry loop
surrounds the verification. -/
def download_video_content (env : Env) (video_url video_id output_dir : String) :
    Except Err String × List Eff :=
  if video_url = "" then (.error .validationError, [])
  else if video_id = "" then (.error .validationError, [])
  else if output_dir = "" then (.error .validationError, [])
  else if ¬ env.mkdirOk output_dir then (.error (.videoDownloadError .mkdirFailed), [])
  else
    let output_path := pjoin output_dir (video_id ++ ".mp4")
    if ¬ env.engineOk video_url then
      (.error (.videoDownloadError .engineFailed),
        [Eff.mkdir output_dir, Eff.engineCall video_url output_path])
    else if env.fileNonzero output_path then
      (.ok output_path, [Eff.mkdir output_dir, Eff.engineCall video_url output_path])
    else if env.partExists (output_path ++ ".part") then
      (.error (.videoDownloadError .partialFile),
        [Eff.mkdir output_dir, Eff.engineCall video_url output_path])
    else
      (.error (.videoDownloadError .missingOrEmpty),
        [Eff.mkdir output_dir, Eff.engineCall video_url output_path])

/-- One entry of `parsed_data["thread_videos"]` / `reply["reply_videos"]`. -/
structure VideoInfo where
  video_url : Option String
  tweet_id : Option String
deriving DecidableEq, Repr

/-- One entry of `parsed_data["replies"]`.  The text payload is opaque to
this core and modelled as a string (`""` = falsy, e.g. an empty dict). -/
structure ReplyInfo where
  reply_id : Option String
  reply_text_content : Option String
  reply_videos : List VideoInfo
deriving DecidableEq, Repr

/-- The `parsed_data` dict consumed by `save_parsed_thread_data`. -/
structure ParsedData where
  user_screen_name : Option String
  thread_id : Option String
  thread_text_content : Option String
  thread_videos : List VideoInfo
  replies : List ReplyInfo
deriving DecidableEq, Repr

/-- The `for video_info in parsed_data.get("thread_videos", [])` loop
(video_downloader.py 259–269): the filename id is always the thread id; a
`VideoDownloadError` from the download is logged and the loop continues,
while any other exception propagates. -/
def processThreadVideos (env : Env) (thread_id videos_path : String) :
    List VideoInfo → Except Err (List String) × List Eff
  | [] => (.ok [], [])
  | vi :: rest =>
    if truthy vi.video_url && (thread_id != "") then
      match download_video_content env (vi.video_url.getD "") thread_id videos_path with
      | (.ok p, effs) =>
        match processThreadVideos env thread_id videos_path rest with
        | (.ok ps, effs2) => (.ok (p :: ps), effs ++ effs2)
        | (.error e, effs2) => (.error e, effs ++ effs2)
      | (.error (.videoDownloadError r), effs) =>
        match processThreadVideos env thread_id videos_path rest with
        | (.ok ps, effs2) =>
          (.ok ps, (effs ++ [Eff.logError (.threadVideoFailed r)]) ++ effs2)
        | (.error e, effs2) =>
          (.error e, (effs ++ [Eff.logError (.threadVideoFailed r)]) ++ effs2)
      | (.error e, effs) => (.error e, effs)
    else processThreadVideos env thread_id videos_path rest

/-- The `for video_info in reply_info.get("reply_videos", [])` loop
(video_downloader.py 295–305): the filename id is the video record's
`tweet_id`, defaulting to the reply id; a `VideoDownloadError` is logged and
the loop continues. -/
def processReplyVideos (env : Env) (rid videos_path : String) :
    List VideoInfo → Except Err (List String) × List Eff
  | [] => (.ok [], [])
  | vi :: rest =>
    let video_id_for_filename := vi.tweet_id.getD rid
    if truthy vi.video_url && (video_id_for_filename != "") then
      match download_video_content env (vi.video_url.getD "") video_id_for_filename videos_path with
      | (.ok p, effs) =>
        match processReplyVideos env rid videos_path rest with
        | (.ok ps, effs2) => (.ok (p :: ps), effs ++ effs2)
        | (.error e, effs2) => (.error e, effs ++ effs2)
      | (.error (.videoDownloadError r), effs) =>
        match processReplyVideos env rid videos_path rest with
        | (.ok ps, effs2) =>
          (.ok ps, (effs ++ [Eff.logError (.replyVideoFailed rid r)]) ++ effs2)
        | (.error e, effs2) =>
          (.error e, (effs ++ [Eff.logError (.replyVideoFailed rid r)]) ++ effs2)
      | (.error e, effs) => (.error e, effs)
    else processReplyVideos env rid videos_path rest

/-- The body of the `for reply_info in parsed_data.get("replies", [])` loop
(video_downloader.py 273–305) for one reply: a falsy `reply_id` skips the
reply with a warning (no directory, no writes); otherwise the reply
directory is ensured (failure propagates — this call is not inside a
`try`), the text is saved if present (a `VideoDownloadError` is logged and
processing continues), and the reply's videos are downloaded. -/
def processReply (env : Env) (replies_base_path : String) (ri : ReplyInfo) :
    Except Err (List String) × List Eff :=
  if ¬ truthy ri.reply_id then (.ok [], [Eff.logWarning .replySkippedNoId])
  else
    let rid := ri.reply_id.getD ""
    let current_reply_path := pjoin replies_base_path rid
    if ¬ env.mkdirOk current_reply_path then
      (.error (.videoDownloadError .mkdirFailed), [])
    else
      let textStep : Except Err (List String) × List Eff :=
        if truthy ri.reply_text_content then
          let reply_text_path := pjoin current_reply_path "reply_text.json"
          match save_json_content env ri.reply_text_content reply_text_path with
          | (.ok _, effs) => (.ok [reply_text_path], effs)
          | (.error (.videoDownloadError _), effs) =>
            (.ok [], effs ++ [Eff.logError (.replyTextFailed rid)])
          | (.error e, effs) => (.error e, effs)
        else (.ok [], [])
      match textStep with
      | (.error e, effs) => (.error e, Eff.mkdir current_reply_path :: effs)
      | (.ok ts, effs) =>
        let reply_videos_path := pjoin current_reply_path "videos"
        match processReplyVideos env rid reply_videos_path ri.reply_videos with
        | (.ok vps, effs2) =>
          (.ok (ts ++ vps), Eff.mkdir current_reply_path :: (effs ++ effs2))
        | (.error e, effs2) =>
          (.error e, Eff.mkdir current_reply_path :: (effs ++ effs2))

/-- The replies loop itself: replies are processed in order; an uncaught
exception from one reply aborts the rest. -/
def processReplies (env : Env) (replies_base_path : String) :
    List ReplyInfo → Except Err (List String) × List Eff
  | [] => (.ok [], [])
  | r :: rest =>
    match processReply env replies_base_path r with
    | (.error e, effs) => (.error e, effs)
    | (.ok ps, effs) =>
      match processReplies env replies_base_path rest with
      | (.ok ps2, effs2) => (.ok (ps ++ ps2), effs ++ effs2)
      | (.error e, effs2) => (.error e, effs ++ effs2)

/-- Model of `save_parsed_thread_data` (video_downloader.py 215–315).  `parsed = none`
models falsy or non-dict input (`ValidationError`).  Note that the root
text save (step 1) is not wrapped in a `try`: its failure propagates out of
the whole function. -/
def save_parsed_thread_data (env : Env) (parsed : Option ParsedData)
    (base_output_dir : String) : Except Err (List String) × List Eff :=
  match parsed with
  | none => (.error .validationError, [])
  | some pd =>
    let user_screen_name := pd.user_screen_name.getD "unknown_user"
    let thread_id := pd.thread_id.getD "unknown_thread"
    let thread_path := pjoin (pjoin base_output_dir user_screen_name) thread_id
    if ¬ env.mkdirOk thread_path then (.error (.videoDownloadError .mkdirFailed), [])
    else
      let textStep : Except Err (List String) × List Eff :=
        if truthy pd.thread_text_content then
          let thread_text_path := pjoin thread_path "thread_text.json"
          match save_json_content env pd.thread_text_content thread_text_path with
          | (.ok _, effs) => (.ok [thread_text_path], effs)
          | (.error e, effs) => (.error e, effs)
        else (.ok [], [])
      match textStep with
      | (.error e, effs) => (.error e, Eff.mkdir thread_path :: effs)
      | (.ok ts, effs1) =>
        let thread_videos_path := pjoin thread_path "videos"
        match processThreadVideos env thread_id thread_videos_path pd.thread_videos with
        | (.error e, effs2) => (.error e, Eff.mkdir thread_path :: (effs1 ++ effs2))
        | (.ok vps, effs2) =>
          let replies_base_path := pjoin thread_path "replies"
          match processReplies env replies_base_path pd.replies with
          | (.error e, effs3) =>
            (.error e, Eff.mkdir thread_path :: (effs1 ++ effs2 ++ effs3))
          | (.ok rps, effs3) =>
            (.ok (ts ++ vps ++ rps), Eff.mkdir thread_path :: (effs1 ++ effs2 ++ effs3))

/-! ## Mutation-bound relations (for the frame property of the selector)

`extract_video_url` can sort a variant list in place; these relations say two
records are identical except that variant lists may be reordered. -/

/-- The `'video'` values agree up to a permutation of the variant list. -/
def variantListPerm : Option VideoVal → Option VideoVal → Prop := fun a b =>
  match a, b with
  | some (.withVariants (.vlist vs)), some (.withVariants (.vlist vs2)) => vs.Perm vs2
  | x, y => x = y

/-- Two mediaDetails entries agree up to a permutation of their variants. -/
def mediaPerm (m m2 : Media) : Prop :=
  m.type = m2.type ∧
  match m.video_info, m2.video_info with
  | some (.withVariants (.vlist ws)), some (.withVariants (.vlist ws2)) => ws.Perm ws2
  | x, y => x = y

/-- The `'mediaDetails'` values agree entrywise up to variant permutation. -/
def mediaDetailsPerm : Option (List Media) → Option (List Media) → Prop := fun a b =>
  match a, b with
  | some ms, some ms2 => List.Forall₂ mediaPerm ms ms2
  | x, y => x = y

/-- Two selector inputs agree except that variant lists may be reordered. -/
def tweetPerm : TweetInput → TweetInput → Prop := fun a b =>
  match a, b with
  | .valid td, .valid td2 =>
    variantListPerm td.video td2.video ∧ mediaDetailsPerm td.mediaDetails td2.mediaDetails
  | x, y => x = y

/-! ## Concrete inputs used by witnesses and counterexamples -/

/-- A non-preferred-container variant, bitrate 500. -/
def c1vA : Variant := ⟨some "video/webm", none, some 500, some "wa", none⟩

/-- A preferred-container variant, bitrate 100. -/
def c1vB : Variant := ⟨some "video/mp4", none, some 100, some "ub", none⟩

/-- A preferred-container variant, bitrate 900 (the best one). -/
def c1vC : Variant := ⟨some "video/mp4", none, some 900, some "uc", none⟩

/-- A variant list mixing both partitions, best entry not first. -/
def c1List : List Variant := [c1vA, c1vB, c1vC]

/-- A tweet record whose `'video'` has a non-list `'variants'` value. -/
def c4Td : TweetData := ⟨some (.withVariants .notList), none⟩

/-- A tweet record whose first mediaDetails entry has a non-list variants
value. -/
def c4TdMedia : TweetData :=
  ⟨none, some [⟨some "video", some (.withVariants .notList)⟩]⟩

/-- Non-preferred variant, bitrate 100, URL `u1`. -/
def c9v1 : Variant := ⟨some "video/webm", none, some 100, some "u1", none⟩

/-- Non-preferred variant, bitrate 200, URL `u2`. -/
def c9v2 : Variant := ⟨some "video/webm", none, some 200, some "u2", none⟩

/-- Selector input with no preferred-container variant and the variant list
out of bitrate order. -/
def c9In : TweetInput := .valid ⟨some (.withVariants (.vlist [c9v1, c9v2])), none⟩

/-- The state of `c9In` after `extract_video_url`: the list was sorted in
place. -/
def c9Out : TweetInput := .valid ⟨some (.withVariants (.vlist [c9v2, c9v1])), none⟩

/-- Oracle where every filesystem/engine operation succeeds. -/
def envAllOk : Env := ⟨fun _ => true, fun _ => true, fun _ => true, fun _ => false, fun _ => true⟩

/-- Oracle where every JSON write fails and everything else succeeds. -/
def envSaveFails : Env := ⟨fun _ => true, fun _ => true, fun _ => true, fun _ => false, fun _ => false⟩

/-- Oracle where the engine leaves no usable file (downloads fail) and
everything else succeeds. -/
def envDownloadFails : Env := ⟨fun _ => true, fun _ => true, fun _ => false, fun _ => false, fun _ => true⟩

/-- A thread with root text and one reply (with text), no videos. -/
def pdC2 : ParsedData := ⟨some "alice", some "t1", some "txt", [], [⟨some "r1", some "rt", []⟩]⟩

/-- A thread with root text, one thread video, and one reply carrying text
and a video — used to witness failure logging and continuation. -/
def pdC2w : ParsedData :=
  ⟨some "alice", some "t1", some "txt",
   [⟨some "http://tv", some "t1"⟩],
   [⟨some "r1", some "rt", [⟨some "http://rv", some "r1"⟩]⟩]⟩

/-- A thread with one reply whose video record carries a `tweet_id`
different from the reply's own id. -/
def pdC3 : ParsedData :=
  ⟨some "alice", some "t1", none, [], [⟨some "r1", none, [⟨some "http://v", some "zzz"⟩]⟩]⟩

/-- A reply with no id but with text and a video. -/
def riNoId : ReplyInfo := ⟨none, some "t", [⟨some "u", some "z"⟩]⟩

/-- A reply list whose first entry has no id and whose second is normal. -/
def c8List : List ReplyInfo := [riNoId, ⟨some "r2", none, []⟩]

/-- The thread subtree root `{base}/{user_screen_name}/{thread_id}` used by
`save_parsed_thread_data`. -/
def threadPath (base : String) (pd : ParsedData) : String :=
  pjoin (pjoin base (pd.user_screen_name.getD "unknown_user"))
    (pd.thread_id.getD "unknown_thread")

/-- The `{thread_path}/replies` directory. -/
def repliesBase (base : String) (pd : ParsedData) : String :=
  pjoin (threadPath base pd) "replies"

/-! ## Lemmas about the stable descending sort -/

theorem insertDesc_perm (v : Variant) (l : List Variant) :
    (insertDesc v l).Perm (v :: l) := by
  induction l with
  | nil => exact List.Perm.refl _
  | cons w t ih =>
    by_cases h : bitrate0 w ≤ bitrate0 v
    · simp only [insertDesc, if_pos h]
      exact List.Perm.refl _
    · simp only [insertDesc, if_neg h]
      exact (List.Perm.cons w ih).trans (List.Perm.swap v w t)

theorem sortByBitrateDesc_perm (l : List Variant) : (sortByBitrateDesc l).Perm l := by
  induction l with
  | nil => exact List.Perm.refl _
  | cons v t ih =>
    exact (insertDesc_perm v (sortByBitrateDesc t)).trans (List.Perm.cons v ih)

theorem sortByBitrateDesc_eq_nil {l : List Variant} (h : sortByBitrateDesc l = []) :
    l = [] := by
  have hp := sortByBitrateDesc_perm l
  rw [h] at hp
  exact hp.symm.eq_nil

theorem sortByBitrateDesc_head_max :
    ∀ (vs : List Variant) (v : Variant) (t : List Variant),
      sortByBitrateDesc vs = v :: t → v ∈ vs ∧ ∀ w ∈ vs, bitrate0 w ≤ bitrate0 v := by
  intro vs
  induction vs with
  | nil =>
    intro v t h
    exact absurd h (by simp [sortByBitrateDesc])
  | cons a rest ih =>
    intro v t h
    simp only [sortByBitrateDesc] at h
    cases h2 : sortByBitrateDesc rest with
    | nil =>
      rw [h2] at h
      simp only [insertDesc] at h
      have hrest := sortByBitrateDesc_eq_nil h2
      injection h with hv ht
      subst hv
      subst hrest
      refine ⟨List.mem_cons_self a [], ?_⟩
      intro w hw
      rcases List.mem_cons.mp hw with rfl | hw
      · exact le_refl _
      · exact absurd hw (List.not_mem_nil w)
    | cons b t2 =>
      rw [h2] at h
      obtain ⟨hb_mem, hb_max⟩ := ih b t2 h2
      simp only [insertDesc] at h
      by_cases hc : bitrate0 b ≤ bitrate0 a
      · rw [if_pos hc] at h
        injection h with hv ht
        subst hv
        refine ⟨List.mem_cons_self a rest, ?_⟩
        intro w hw
        rcases List.mem_cons.mp hw with rfl | hw
        · exact le_refl _
        · exact le_trans (hb_max w hw) hc
      · rw [if_neg hc] at h
        injection h with hv ht
        subst hv
        refine ⟨List.mem_cons_of_mem a hb_mem, ?_⟩
        intro w hw
        rcases List.mem_cons.mp hw with rfl | hw
        · exact le_of_lt (lt_of_not_le hc)
        · exact hb_max w hw

/-! ## C1 -/

/-- Claim C1: for every variant list with at least one preferred-container
(`video/mp4`) entry, the selection body returns the URL of a
maximum-bitrate preferred-container entry (missing bitrate = 0); with no
preferred-container entry but a non-empty list, it returns the URL of a
maximum-bitrate entry overall.  Stated for both record shapes at once via
the key selectors, and for every list, hence regardless of list order. -/
theorem c1_select_best_variant (getType getUrl : Variant → Option String)
    (vs : List Variant) :
    (vs.filter (fun v => getType v == some "video/mp4") ≠ [] →
      ∃ v ∈ vs.filter (fun v => getType v == some "video/mp4"),
        (selectVariants getType getUrl vs).1 = some (getUrl v) ∧
        ∀ w ∈ vs.filter (fun v => getType v == some "video/mp4"),
          bitrate0 w ≤ bitrate0 v) ∧
    (vs.filter (fun v => getType v == some "video/mp4") = [] → vs ≠ [] →
      ∃ v ∈ vs, (selectVariants getType getUrl vs).1 = some (getUrl v) ∧
        ∀ w ∈ vs, bitrate0 w ≤ bitrate0 v) := by
  constructor
  · intro hne
    cases h : sortByBitrateDesc (vs.filter (fun v => getType v == some "video/mp4")) with
    | nil => exact absurd (sortByBitrateDesc_eq_nil h) hne
    | cons b bt =>
      obtain ⟨hmem, hmax⟩ := sortByBitrateDesc_head_max _ b bt h
      refine ⟨b, hmem, ?_, hmax⟩
      simp only [selectVariants, h]
  · intro hemp hne
    cases h : sortByBitrateDesc vs with
    | nil => exact absurd (sortByBitrateDesc_eq_nil h) hne
    | cons b bt =>
      obtain ⟨hmem, hmax⟩ := sortByBitrateDesc_head_max _ b bt h
      refine ⟨b, hmem, ?_, hmax⟩
      simp only [selectVariants, hemp, sortByBitrateDesc, h]

/-- Witness for C1 at a concrete mixed variant list. -/
theorem c1_select_best_variant_witness :
    ∃ v ∈ c1List.filter (fun v => v.type == some "video/mp4"),
      (selectVariants Variant.type Variant.src c1List).1 = some v.src ∧
      ∀ w ∈ c1List.filter (fun v => v.type == some "video/mp4"),
        bitrate0 w ≤ bitrate0 v :=
  (c1_select_best_variant Variant.type Variant.src c1List).1 (by decide)

/-! ## C4 -/

/-- Claim C4: malformed selector input — not a record at all, or a variant
container that is not a list (in either shape) — raises the explicit
failure, which is a different value from the legitimate `.ok none`
("no variant found") result produced for an empty/absent video. -/
theorem c4_malformed_raises :
    (extract_video_url .invalid = .error .scrapingError) ∧
    (∀ td : TweetData, td.video = some (.withVariants .notList) →
      extract_video_url (.valid td) = .error .scrapingError) ∧
    (∀ (td : TweetData) (m : Media) (ms : List Media),
      td.video = none → td.mediaDetails = some (m :: ms) →
      m.type = some "video" → m.video_info = some (.withVariants .notList) →
      extract_video_url (.valid td) = .error .scrapingError) ∧
    (extract_video_url (.valid ⟨none, none⟩) = .ok (none, .valid ⟨none, none⟩)) ∧
    (extract_video_url (.valid ⟨some (.withVariants (.vlist [])), none⟩) =
      .ok (none, .valid ⟨some (.withVariants (.vlist [])), none⟩)) ∧
    (∀ r : Option String × TweetInput,
      (Except.error Err.scrapingError : Except Err (Option String × TweetInput)) ≠ .ok r) := by
  refine ⟨rfl, ?_, ?_, rfl, rfl, ?_⟩
  · intro td h
    simp [extract_video_url, h]
  · intro td m ms hv hm ht hvi
    simp [extract_video_url, hv, extractFromMediaDetailsTop, hm,
      extractFromMediaDetails, ht, hvi]
  · intro r h
    exact Except.noConfusion h

/-- Witness for C4 at concrete malformed inputs of both shapes. -/
theorem c4_malformed_raises_witness :
    extract_video_url (.valid c4Td) = .error .scrapingError ∧
    extract_video_url (.valid c4TdMedia) = .error .scrapingError :=
  ⟨c4_malformed_raises.2.1 c4Td rfl,
   c4_malformed_raises.2.2.1 c4TdMedia ⟨some "video", some (.withVariants .notList)⟩ []
     rfl rfl rfl rfl⟩

/-! ## C10 -/

/-- Claim C10: a present primary video field with an empty variant list does
not produce the no-video result directly; the selector behaves exactly as if
the primary field were absent, probing the `mediaDetails` shape, and yields
the no-video result only if that shape also yields nothing. -/
theorem c10_empty_primary_falls_through (md : Option (List Media)) :
    (extract_video_url (.valid ⟨some (.withVariants (.vlist [])), md⟩)).map Prod.fst =
    (extract_video_url (.valid ⟨none, md⟩)).map Prod.fst := by
  cases md with
  | none => rfl
  | some ms =>
    show (extractFromMediaDetailsTop ⟨some (.withVariants (.vlist [])), some ms⟩).map Prod.fst =
      (extractFromMediaDetailsTop ⟨none, some ms⟩).map Prod.fst
    simp only [extractFromMediaDetailsTop]
    cases h : extractFromMediaDetails ms with
    | error e => rfl
    | ok pr =>
      obtain ⟨r, ms2⟩ := pr
      cases r with
      | none => rfl
      | some r0 => rfl

/-- Witness for C10 at a concrete mediaDetails list holding a usable
variant. -/
theorem c10_empty_primary_falls_through_witness :
    (extract_video_url (.valid ⟨some (.withVariants (.vlist [])),
        some [⟨some "video", some (.withVariants (.vlist
          [⟨none, some "video/mp4", some 7, none, some "mu"⟩]))⟩]⟩)).map Prod.fst =
    (extract_video_url (.valid ⟨none,
        some [⟨some "video", some (.withVariants (.vlist
          [⟨none, some "video/mp4", some 7, none, some "mu"⟩]))⟩]⟩)).map Prod.fst :=
  c10_empty_primary_falls_through
    (some [⟨some "video", some (.withVariants (.vlist
      [⟨none, some "video/mp4", some 7, none, some "mu"⟩]))⟩])

/-! ## C9 -/

theorem variantListPerm_refl (a : Option VideoVal) : variantListPerm a a := by
  match a with
  | none => exact rfl
  | some .falsy => exact rfl
  | some .noVariantsKey => exact rfl
  | some (.withVariants .notList) => exact rfl
  | some (.withVariants (.vlist vs)) => exact List.Perm.refl vs

theorem mediaPerm_refl (m : Media) : mediaPerm m m := by
  refine ⟨rfl, ?_⟩
  match h : m.video_info with
  | none => exact rfl
  | some .noVariantsKey => exact rfl
  | some (.withVariants .notList) => exact rfl
  | some (.withVariants (.vlist ws)) => exact List.Perm.refl ws

theorem mediaForallTwo_refl (ms : List Media) : List.Forall₂ mediaPerm ms ms := by
  induction ms with
  | nil => exact List.Forall₂.nil
  | cons m t ih => exact List.Forall₂.cons (mediaPerm_refl m) ih

theorem mediaDetailsPerm_refl (a : Option (List Media)) : mediaDetailsPerm a a := by
  match a with
  | none => exact rfl
  | some ms => exact mediaForallTwo_refl ms

theorem tweetPerm_refl (t : TweetInput) : tweetPerm t t := by
  match t with
  | .invalid => exact rfl
  | .valid td => exact ⟨variantListPerm_refl td.video, mediaDetailsPerm_refl td.mediaDetails⟩

theorem selectVariants_state_perm (getType getUrl : Variant → Option String)
    (vs : List Variant) : ((selectVariants getType getUrl vs).2).Perm vs := by
  cases h : sortByBitrateDesc (vs.filter (fun v => getType v == some "video/mp4")) with
  | cons b bt =>
    simp only [selectVariants, h]
    exact List.Perm.refl vs
  | nil =>
    cases h2 : sortByBitrateDesc vs with
    | nil =>
      simp only [selectVariants, h, h2]
      exact List.Perm.refl vs
    | cons b bt =>
      simp only [selectVariants, h, h2]
      rw [← h2]
      exact sortByBitrateDesc_perm vs

theorem extractFromMediaDetails_perm :
    ∀ (ms : List Media) (r : Option (Option String)) (ms2 : List Media),
      extractFromMediaDetails ms = .ok (r, ms2) → List.Forall₂ mediaPerm ms ms2 := by
  intro ms
  induction ms with
  | nil =>
    intro r ms2 h
    simp only [extractFromMediaDetails] at h
    injection h with h1
    cases h1
    exact List.Forall₂.nil
  | cons m rest ih =>
    intro r ms2 h
    cases hb : m.type == some "video" with
    | false =>
      simp only [extractFromMediaDetails, hb] at h
      cases hr : extractFromMediaDetails rest with
      | error e =>
        rw [hr] at h
        exact Except.noConfusion h
      | ok pr =>
        obtain ⟨r2, rest2⟩ := pr
        rw [hr] at h
        injection h with h1
        cases h1
        exact List.Forall₂.cons (mediaPerm_refl m) (ih _ _ hr)
    | true =>
      cases hvi : m.video_info with
      | none =>
        simp only [extractFromMediaDetails, hb, hvi] at h
        cases hr : extractFromMediaDetails rest with
        | error e =>
          rw [hr] at h
          exact Except.noConfusion h
        | ok pr =>
          obtain ⟨r2, rest2⟩ := pr
          rw [hr] at h
          injection h with h1
          cases h1
          exact List.Forall₂.cons (mediaPerm_refl m) (ih _ _ hr)
      | some vi =>
        cases vi with
        | noVariantsKey =>
          simp only [extractFromMediaDetails, hb, hvi] at h
          cases hr : extractFromMediaDetails rest with
          | error e =>
            rw [hr] at h
            exact Except.noConfusion h
          | ok pr =>
            obtain ⟨r2, rest2⟩ := pr
            rw [hr] at h
            injection h with h1
            cases h1
            exact List.Forall₂.cons (mediaPerm_refl m) (ih _ _ hr)
        | withVariants vc =>
          cases vc with
          | notList =>
            simp only [extractFromMediaDetails, hb, hvi] at h
            exact Except.noConfusion h
          | vlist ws =>
            simp only [extractFromMediaDetails, hb, hvi] at h
            cases hs : selectVariants Variant.content_type Variant.url ws with
            | mk orr ws2 =>
              cases orr with
              | some r0 =>
                rw [hs] at h
                injection h with h1
                cases h1
                refine List.Forall₂.cons ⟨rfl, ?_⟩ (mediaForallTwo_refl rest)
                rw [hvi]
                have hp := selectVariants_state_perm Variant.content_type Variant.url ws
                rw [hs] at hp
                exact hp.symm
              | none =>
                rw [hs] at h
                cases hr : extractFromMediaDetails rest with
                | error e =>
                  rw [hr] at h
                  exact Except.noConfusion h
                | ok pr =>
                  obtain ⟨r2, rest2⟩ := pr
                  rw [hr] at h
                  injection h with h1
                  cases h1
                  exact List.Forall₂.cons (mediaPerm_refl m) (ih _ _ hr)

theorem extractFromMediaDetailsTop_perm (td : TweetData) (r : Option String)
    (t2 : TweetInput) (h : extractFromMediaDetailsTop td = .ok (r, t2)) :
    tweetPerm (.valid td) t2 := by
  cases hmd : td.mediaDetails with
  | none =>
    simp only [extractFromMediaDetailsTop, hmd] at h
    injection h with h1
    cases h1
    exact tweetPerm_refl _
  | some ms =>
    simp only [extractFromMediaDetailsTop, hmd] at h
    cases hloop : extractFromMediaDetails ms with
    | error e =>
      rw [hloop] at h
      exact Except.noConfusion h
    | ok pr =>
      obtain ⟨r0, ms2⟩ := pr
      rw [hloop] at h
      cases r0 with
      | some rr =>
        injection h with h1
        cases h1
        refine ⟨variantListPerm_refl td.video, ?_⟩
        rw [hmd]
        exact extractFromMediaDetails_perm ms _ _ hloop
      | none =>
        injection h with h1
        cases h1
        refine ⟨variantListPerm_refl td.video, ?_⟩
        rw [hmd]
        exact extractFromMediaDetails_perm ms _ _ hloop

/-- Counterexample to claim C9: on this record with two non-preferred
variants out of bitrate order, `extract_video_url` sorts the variant list
in place — the record after the call differs from the input. -/
theorem c9_counterexample :
    extract_video_url c9In = .ok (some "u2", c9Out) ∧ c9Out ≠ c9In := by
  constructor
  · rfl
  · decide

/-- Claim C9 (amended): the selector performs no I/O and never adds or
removes a variant — the record after selection agrees with the input up to
a permutation of one variant list (the in-place descending sort of the
fallback branch); moreover when the preferred-container partition is
non-empty the input record is left entirely unchanged. -/
theorem c9_amended_mutation_bound :
    (∀ (t : TweetInput) (r : Option String) (t2 : TweetInput),
      extract_video_url t = .ok (r, t2) → tweetPerm t t2) ∧
    (∀ (td : TweetData) (vs : List Variant),
      td.video = some (.withVariants (.vlist vs)) →
      vs.filter (fun v => v.type == some "video/mp4") ≠ [] →
      ∃ r, extract_video_url (.valid td) = .ok (r, .valid td)) := by
  constructor
  · intro t r t2 h
    cases t with
    | invalid => exact Except.noConfusion h
    | valid td =>
      cases hv : td.video with
      | none =>
        simp only [extract_video_url, hv] at h
        exact extractFromMediaDetailsTop_perm td r t2 h
      | some vv =>
        cases vv with
        | falsy =>
          simp only [extract_video_url, hv] at h
          exact extractFromMediaDetailsTop_perm td r t2 h
        | noVariantsKey =>
          simp only [extract_video_url, hv] at h
          exact extractFromMediaDetailsTop_perm td r t2 h
        | withVariants vc =>
          cases vc with
          | notList =>
            simp only [extract_video_url, hv] at h
            exact Except.noConfusion h
          | vlist vs =>
            simp only [extract_video_url, hv] at h
            cases hs : selectVariants Variant.type Variant.src vs with
            | mk orr vs2 =>
              cases orr with
              | some r0 =>
                rw [hs] at h
                injection h with h1
                cases h1
                refine ⟨?_, ?_⟩
                · rw [hv]
                  have hp := selectVariants_state_perm Variant.type Variant.src vs
                  rw [hs] at hp
                  exact hp.symm
                · exact mediaDetailsPerm_refl td.mediaDetails
              | none =>
                rw [hs] at h
                exact extractFromMediaDetailsTop_perm td r t2 h
  · intro td vs hv hne
    obtain ⟨tv, tmd⟩ := td
    simp only at hv
    subst hv
    cases h : sortByBitrateDesc (vs.filter (fun v => v.type == some "video/mp4")) with
    | nil => exact absurd (sortByBitrateDesc_eq_nil h) hne
    | cons b bt =>
      refine ⟨b.src, ?_⟩
      simp only [extract_video_url, selectVariants, h]

/-- Witness for the amended C9 at the concrete mutated record. -/
theorem c9_amended_mutation_bound_witness : tweetPerm c9In c9Out :=
  c9_amended_mutation_bound.1 c9In (some "u2") c9Out rfl

/-! ## C7 -/

/-- Claim C7: a non-positive reply limit raises a validation failure and the
backend is never invoked for that request (zero backend invocations). -/
theorem c7_nonpositive_limit_no_call :
    ∀ (α : Type) (url : String) (limit : Int) (backend : String → Option (List α)),
      limit ≤ 0 →
      fetch_tweet_replies url limit backend = (.error .validationError, 0) := by
  intro α url limit backend h
  simp [fetch_tweet_replies, h]

/-- Witness for C7: limit 0, a backend that would return data, zero calls. -/
theorem c7_nonpositive_limit_no_call_witness :
    fetch_tweet_replies "x.com/a/status/1" 0 (fun _ => some ([0] : List Nat)) =
      (.error .validationError, 0) :=
  c7_nonpositive_limit_no_call Nat "x.com/a/status/1" 0 _ (by decide)

/-! ## C6 -/

/-- Claim C6: an empty dataset from the backend is a hard failure for the
root fetch (`ScrapingError` raised) but not for the replies fetch, which
returns an empty list and emits only a warning-level signal. -/
theorem c6_empty_dataset_policy :
    (∀ (α : Type) (url tid fu : String) (backend : String → Option (List α)),
      extract_tweet_id url = .ok (some tid) → format_url url = .ok fu →
      backend fu = some [] →
      fetch_tweet url backend = (.error .scrapingError, 1)) ∧
    (∀ (α : Type) (url fu : String) (limit : Int) (backend : String → Option (List α)),
      0 < limit → format_url url = .ok fu → backend fu = some [] →
      fetch_tweet_replies url limit backend = (.ok ([], true), 1)) := by
  constructor
  · intro α url tid fu backend hid hfu hb
    simp [fetch_tweet, hid, hfu, hb]
  · intro α url fu limit backend hl hfu hb
    have hnl : ¬ limit ≤ 0 := not_le.mpr hl
    simp [fetch_tweet_replies, hnl, hfu, hb]

/-- Witness for C6 at a concrete URL and an empty-dataset backend. -/
theorem c6_empty_dataset_policy_witness :
    fetch_tweet "x.com/a/status/1" (fun _ => some ([] : List Nat)) =
      (.error .scrapingError, 1) ∧
    fetch_tweet_replies "x.com/a/status/1" 5 (fun _ => some ([] : List Nat)) =
      (.ok ([], true), 1) :=
  ⟨c6_empty_dataset_policy.1 Nat "x.com/a/status/1" "1" "https://x.com/a/status/1" _
     rfl rfl rfl,
   c6_empty_dataset_policy.2 Nat "x.com/a/status/1" "https://x.com/a/status/1" 5 _
     (by decide) rfl rfl⟩

/-! ## C5 -/

/-- Claim C5: with valid non-empty string arguments (and the directory
ensured and the engine invocation completing), the download returns the
output path `{output_dir}/{video_id}.mp4` exactly when a non-zero-size file
exists there after the attempt; otherwise it raises a download failure
(distinguishing a leftover `.part` artifact), and the trace shows exactly
one engine invocation — no automatic retry. -/
theorem c5_download_verifies_file :
    ∀ (env : Env) (url id dir : String),
      url ≠ "" → id ≠ "" → dir ≠ "" →
      env.mkdirOk dir = true → env.engineOk url = true →
      ((download_video_content env url id dir).1 = .ok (pjoin dir (id ++ ".mp4")) ↔
        env.fileNonzero (pjoin dir (id ++ ".mp4")) = true) ∧
      (env.fileNonzero (pjoin dir (id ++ ".mp4")) = false →
        (download_video_content env url id dir).1 =
          .error (.videoDownloadError
            (if env.partExists (pjoin dir (id ++ ".mp4") ++ ".part") then .partialFile
             else .missingOrEmpty))) ∧
      (download_video_content env url id dir).2 =
        [Eff.mkdir dir, Eff.engineCall url (pjoin dir (id ++ ".mp4"))] := by
  intro env url id dir hu hi hd hmk heng
  by_cases hf : env.fileNonzero (pjoin dir (id ++ ".mp4")) = true
  · simp [download_video_content, hu, hi, hd, hmk, heng, hf]
  · by_cases hp : env.partExists (pjoin dir (id ++ ".mp4") ++ ".part") = true
    · simp [download_video_content, hu, hi, hd, hmk, heng, hf, hp]
    · simp [download_video_content, hu, hi, hd, hmk, heng, hf, hp]

/-- Witness for C5: a successful download returns the canonical path; a
download leaving no usable file raises. -/
theorem c5_download_verifies_file_witness :
    (download_video_content envAllOk "u" "v1" "d").1 = .ok (pjoin "d" ("v1" ++ ".mp4")) ∧
    (download_video_content envDownloadFails "u" "v1" "d").1 =
      .error (.videoDownloadError
        (if envDownloadFails.partExists (pjoin "d" ("v1" ++ ".mp4") ++ ".part")
         then .partialFile else .missingOrEmpty)) :=
  ⟨((c5_download_verifies_file envAllOk "u" "v1" "d"
      (by decide) (by decide) (by decide) rfl rfl).1).mpr rfl,
   ((c5_download_verifies_file envDownloadFails "u" "v1" "d"
      (by decide) (by decide) (by decide) rfl rfl).2.1) rfl⟩

/-! ## Helper lemmas about the persistence layer -/

theorem truthy_getD {o : Option String} (h : truthy o = true) : o.getD "" ≠ "" := by
  cases o with
  | none => simp [truthy] at h
  | some s =>
    simp only [truthy, bne_iff_ne, ne_eq] at h
    simpa using h

theorem pjoin_ne_empty (a b : String) : pjoin a b ≠ "" := by
  intro h
  have hlen := congrArg String.length h
  simp only [pjoin, String.length_append] at hlen
  have h1 : ("/" : String).length = 1 := rfl
  have h0 : ("" : String).length = 0 := rfl
  rw [h1, h0] at hlen
  omega

theorem download_video_content_ok_path (env : Env) (u i d p : String) (effs : List Eff)
    (h : download_video_content env u i d = (.ok p, effs)) :
    p = pjoin d (i ++ ".mp4") := by
  simp only [download_video_content] at h
  split_ifs at h
  all_goals injection h with ha hb
  all_goals
    first
      | exact Except.noConfusion ha
      | (injection ha with ha2; exact ha2.symm)

theorem download_result_cases (env : Env) (u i d : String)
    (hu : u ≠ "") (hi : i ≠ "") (hd : d ≠ "") (hmk : env.mkdirOk d = true) :
    download_video_content env u i d =
      (.ok (pjoin d (i ++ ".mp4")),
        [Eff.mkdir d, Eff.engineCall u (pjoin d (i ++ ".mp4"))]) ∨
    ∃ r, download_video_content env u i d =
      (.error (.videoDownloadError r),
        [Eff.mkdir d, Eff.engineCall u (pjoin d (i ++ ".mp4"))]) := by
  simp only [download_video_content, if_neg hu, if_neg hi, if_neg hd,
    if_neg (not_not_intro hmk)]
  by_cases he : env.engineOk u = true
  · rw [if_neg (not_not_intro he)]
    by_cases hf : env.fileNonzero (pjoin d (i ++ ".mp4")) = true
    · rw [if_pos hf]
      exact Or.inl rfl
    · rw [if_neg hf]
      by_cases hp : env.partExists (pjoin d (i ++ ".mp4") ++ ".part") = true
      · rw [if_pos hp]
        exact Or.inr ⟨.partialFile, rfl⟩
      · rw [if_neg hp]
        exact Or.inr ⟨.missingOrEmpty, rfl⟩
  · rw [if_pos he]
    exact Or.inr ⟨.engineFailed, rfl⟩

theorem processThreadVideos_ok (env : Env) (tid path : String)
    (hmk : ∀ p, env.mkdirOk p = true) (hpath : path ≠ "") :
    ∀ vis : List VideoInfo, ∃ ps effs,
      processThreadVideos env tid path vis = (.ok ps, effs) ∧
      ∀ vi ∈ vis, truthy vi.video_url = true → tid ≠ "" →
        Eff.engineCall (vi.video_url.getD "") (pjoin path (tid ++ ".mp4")) ∈ effs ∧
        ∀ r, (download_video_content env (vi.video_url.getD "") tid path).1 =
            .error (.videoDownloadError r) →
          Eff.logError (.threadVideoFailed r) ∈ effs := by
  intro vis
  induction vis with
  | nil => exact ⟨[], [], rfl, by simp⟩
  | cons vi rest ih =>
    obtain ⟨ps, effs, ihe, ihm⟩ := ih
    by_cases hc : (truthy vi.video_url && (tid != "")) = true
    · have hc2 : truthy vi.video_url = true ∧ ¬ (tid = "") := by simpa using hc
      have hu : (vi.video_url.getD "") ≠ "" := truthy_getD hc2.1
      rcases download_result_cases env (vi.video_url.getD "") tid path hu hc2.2 hpath
          (hmk path) with hok | ⟨r0, herr⟩
      · refine ⟨pjoin path (tid ++ ".mp4") :: ps,
          [Eff.mkdir path,
            Eff.engineCall (vi.video_url.getD "") (pjoin path (tid ++ ".mp4"))] ++ effs,
          by simp only [processThreadVideos, if_pos hc, hok, ihe], ?_⟩
        intro vj hj htr hne
        rcases List.mem_cons.mp hj with rfl | hj
        · refine ⟨List.mem_append_left _ (by simp), ?_⟩
          intro r hr
          rw [hok] at hr
          simp at hr
        · obtain ⟨h1, h2⟩ := ihm vj hj htr hne
          exact ⟨List.mem_append_right _ h1, fun r hr => List.mem_append_right _ (h2 r hr)⟩
      · refine ⟨ps,
          ([Eff.mkdir path,
            Eff.engineCall (vi.video_url.getD "") (pjoin path (tid ++ ".mp4"))] ++
           [Eff.logError (.threadVideoFailed r0)]) ++ effs,
          by simp only [processThreadVideos, if_pos hc, herr, ihe], ?_⟩
        intro vj hj htr hne
        rcases List.mem_cons.mp hj with rfl | hj
        · refine ⟨List.mem_append_left _ (List.mem_append_left _ (by simp)), ?_⟩
          intro r hr
          rw [herr] at hr
          simp at hr
          subst hr
          exact List.mem_append_left _ (List.mem_append_right _ (by simp))
        · obtain ⟨h1, h2⟩ := ihm vj hj htr hne
          exact ⟨List.mem_append_right _ h1, fun r hr => List.mem_append_right _ (h2 r hr)⟩
    · refine ⟨ps, effs, by simp only [processThreadVideos, if_neg hc, ihe], ?_⟩
      intro vj hj htr hne
      rcases List.mem_cons.mp hj with rfl | hj
      · exact absurd (by simp [htr, hne]) hc
      · exact ihm vj hj htr hne

theorem processReplyVideos_ok (env : Env) (rid path : String)
    (hmk : ∀ p, env.mkdirOk p = true) (hpath : path ≠ "") :
    ∀ vis : List VideoInfo, ∃ ps effs,
      processReplyVideos env rid path vis = (.ok ps, effs) ∧
      ∀ vi ∈ vis, truthy vi.video_url = true → (vi.tweet_id.getD rid) ≠ "" →
        Eff.engineCall (vi.video_url.getD "")
          (pjoin path ((vi.tweet_id.getD rid) ++ ".mp4")) ∈ effs ∧
        ∀ r, (download_video_content env (vi.video_url.getD "")
            (vi.tweet_id.getD rid) path).1 = .error (.videoDownloadError r) →
          Eff.logError (.replyVideoFailed rid r) ∈ effs := by
  intro vis
  induction vis with
  | nil => exact ⟨[], [], rfl, by simp⟩
  | cons vi rest ih =>
    obtain ⟨ps, effs, ihe, ihm⟩ := ih
    by_cases hc : (truthy vi.video_url && ((vi.tweet_id.getD rid) != "")) = true
    · have hc2 : truthy vi.video_url = true ∧ ¬ ((vi.tweet_id.getD rid) = "") := by
        simpa using hc
      have hu : (vi.video_url.getD "") ≠ "" := truthy_getD hc2.1
      rcases download_result_cases env (vi.video_url.getD "") (vi.tweet_id.getD rid) path
          hu hc2.2 hpath (hmk path) with hok | ⟨r0, herr⟩
      · refine ⟨pjoin path ((vi.tweet_id.getD rid) ++ ".mp4") :: ps,
          [Eff.mkdir path,
            Eff.engineCall (vi.video_url.getD "")
              (pjoin path ((vi.tweet_id.getD rid) ++ ".mp4"))] ++ effs,
          by simp only [processReplyVideos, if_pos hc, hok, ihe], ?_⟩
        intro vj hj htr hne
        rcases List.mem_cons.mp hj with rfl | hj
        · refine ⟨List.mem_append_left _ (by simp), ?_⟩
          intro r hr
          rw [hok] at hr
          simp at hr
        · obtain ⟨h1, h2⟩ := ihm vj hj htr hne
          exact ⟨List.mem_append_right _ h1, fun r hr => List.mem_append_right _ (h2 r hr)⟩
      · refine ⟨ps,
          ([Eff.mkdir path,
            Eff.engineCall (vi.video_url.getD "")
              (pjoin path ((vi.tweet_id.getD rid) ++ ".mp4"))] ++
           [Eff.logError (.replyVideoFailed rid r0)]) ++ effs,
          by simp only [processReplyVideos, if_pos hc, herr, ihe], ?_⟩
        intro vj hj htr hne
        rcases List.mem_cons.mp hj with rfl | hj
        · refine ⟨List.mem_append_left _ (List.mem_append_left _ (by simp)), ?_⟩
          intro r hr
          rw [herr] at hr
          simp at hr
          subst hr
          exact List.mem_append_left _ (List.mem_append_right _ (by simp))
        · obtain ⟨h1, h2⟩ := ihm vj hj htr hne
          exact ⟨List.mem_append_right _ h1, fun r hr => List.mem_append_right _ (h2 r hr)⟩
    · refine ⟨ps, effs, by simp only [processReplyVideos, if_neg hc, ihe], ?_⟩
      intro vj hj htr hne
      rcases List.mem_cons.mp hj with rfl | hj
      · exact absurd (by simp [htr, hne]) hc
      · exact ihm vj hj htr hne

theorem save_json_content_cases (env : Env) (data : Option String) (p : String)
    (hdata : truthy data = true) (hp : p ≠ "") :
    (env.saveOk p = true ∧ save_json_content env data p = (.ok (), [Eff.wroteJson p])) ∨
    (env.saveOk p = false ∧ save_json_content env data p =
      (.error (.videoDownloadError .saveJsonFailed), [])) := by
  by_cases hs : env.saveOk p = true
  · exact Or.inl ⟨hs, by simp [save_json_content, hdata, hp, hs]⟩
  · exact Or.inr ⟨by simpa using hs, by simp [save_json_content, hdata, hp, hs]⟩

theorem processReply_ok (env : Env) (rbase : String) (ri : ReplyInfo)
    (hmk : ∀ p, env.mkdirOk p = true) :
    ∃ ps effs, processReply env rbase ri = (.ok ps, effs) ∧
      (truthy ri.reply_id = true →
        Eff.mkdir (pjoin rbase (ri.reply_id.getD "")) ∈ effs) ∧
      (truthy ri.reply_id = true → truthy ri.reply_text_content = true →
        env.saveOk (pjoin (pjoin rbase (ri.reply_id.getD "")) "reply_text.json") = false →
        Eff.logError (.replyTextFailed (ri.reply_id.getD "")) ∈ effs) ∧
      (truthy ri.reply_id = true →
        ∀ vi ∈ ri.reply_videos, truthy vi.video_url = true →
          (vi.tweet_id.getD (ri.reply_id.getD "")) ≠ "" →
          Eff.engineCall (vi.video_url.getD "")
            (pjoin (pjoin (pjoin rbase (ri.reply_id.getD "")) "videos")
              ((vi.tweet_id.getD (ri.reply_id.getD "")) ++ ".mp4")) ∈ effs ∧
          ∀ r, (download_video_content env (vi.video_url.getD "")
              (vi.tweet_id.getD (ri.reply_id.getD ""))
              (pjoin (pjoin rbase (ri.reply_id.getD "")) "videos")).1 =
              .error (.videoDownloadError r) →
            Eff.logError (.replyVideoFailed (ri.reply_id.getD "") r) ∈ effs) := by
  by_cases hid : truthy ri.reply_id = true
  · obtain ⟨vps, veffs, hv, hvm⟩ :=
      processReplyVideos_ok env (ri.reply_id.getD "")
        (pjoin (pjoin rbase (ri.reply_id.getD "")) "videos") hmk
        (pjoin_ne_empty _ _) ri.reply_videos
    by_cases htext : truthy ri.reply_text_content = true
    · rcases save_json_content_cases env ri.reply_text_content
        (pjoin (pjoin rbase (ri.reply_id.getD "")) "reply_text.json") htext
        (pjoin_ne_empty _ _) with ⟨hsok, hsave⟩ | ⟨hsf, hsave⟩
      · refine ⟨pjoin (pjoin rbase (ri.reply_id.getD "")) "reply_text.json" :: vps,
          Eff.mkdir (pjoin rbase (ri.reply_id.getD "")) ::
            (Eff.wroteJson (pjoin (pjoin rbase (ri.reply_id.getD "")) "reply_text.json") ::
              veffs), ?_, ?_, ?_, ?_⟩
        · simp [processReply, hid, hmk, htext, hsave, hv]
        · intro _
          exact List.mem_cons_self _ _
        · intro _ _ hfalse
          rw [hsok] at hfalse
          exact Bool.noConfusion hfalse
        · intro _ vi hvi htr hne
          obtain ⟨h1, h2⟩ := hvm vi hvi htr hne
          exact ⟨List.mem_cons_of_mem _ (List.mem_cons_of_mem _ h1),
            fun r hr => List.mem_cons_of_mem _ (List.mem_cons_of_mem _ (h2 r hr))⟩
      · refine ⟨vps,
          Eff.mkdir (pjoin rbase (ri.reply_id.getD "")) ::
            (Eff.logError (.replyTextFailed (ri.reply_id.getD "")) :: veffs),
          ?_, ?_, ?_, ?_⟩
        · simp [processReply, hid, hmk, htext, hsave, hv]
        · intro _
          exact List.mem_cons_self _ _
        · intro _ _ _
          simp
        · intro _ vi hvi htr hne
          obtain ⟨h1, h2⟩ := hvm vi hvi htr hne
          exact ⟨List.mem_cons_of_mem _ (List.mem_cons_of_mem _ h1),
            fun r hr => List.mem_cons_of_mem _ (List.mem_cons_of_mem _ (h2 r hr))⟩
    · refine ⟨vps, Eff.mkdir (pjoin rbase (ri.reply_id.getD "")) :: veffs, ?_, ?_, ?_, ?_⟩
      · simp [processReply, hid, hmk, htext, hv]
      · intro _
        exact List.mem_cons_self _ _
      · intro _ hst _
        exact absurd hst htext
      · intro _ vi hvi htr hne
        obtain ⟨h1, h2⟩ := hvm vi hvi htr hne
        exact ⟨List.mem_cons_of_mem _ h1,
          fun r hr => List.mem_cons_of_mem _ (h2 r hr)⟩
  · refine ⟨[], [Eff.logWarning .replySkippedNoId], ?_, ?_, ?_, ?_⟩
    · simp [processReply, hid]
    · intro h
      exact absurd h hid
    · intro h _ _
      exact absurd h hid
    · intro h
      exact absurd h hid

theorem processReplies_ok (env : Env) (rbase : String)
    (hmk : ∀ p, env.mkdirOk p = true) :
    ∀ rs : List ReplyInfo, ∃ ps effs,
      processReplies env rbase rs = (.ok ps, effs) ∧
      ∀ ri ∈ rs,
        (truthy ri.reply_id = true →
          Eff.mkdir (pjoin rbase (ri.reply_id.getD "")) ∈ effs) ∧
        (truthy ri.reply_id = true → truthy ri.reply_text_content = true →
          env.saveOk (pjoin (pjoin rbase (ri.reply_id.getD "")) "reply_text.json") = false →
          Eff.logError (.replyTextFailed (ri.reply_id.getD "")) ∈ effs) ∧
        (truthy ri.reply_id = true →
          ∀ vi ∈ ri.reply_videos, truthy vi.video_url = true →
            (vi.tweet_id.getD (ri.reply_id.getD "")) ≠ "" →
            Eff.engineCall (vi.video_url.getD "")
              (pjoin (pjoin (pjoin rbase (ri.reply_id.getD "")) "videos")
                ((vi.tweet_id.getD (ri.reply_id.getD "")) ++ ".mp4")) ∈ effs ∧
            ∀ r, (download_video_content env (vi.video_url.getD "")
                (vi.tweet_id.getD (ri.reply_id.getD ""))
                (pjoin (pjoin rbase (ri.reply_id.getD "")) "videos")).1 =
                .error (.videoDownloadError r) →
              Eff.logError (.replyVideoFailed (ri.reply_id.getD "") r) ∈ effs) := by
  intro rs
  induction rs with
  | nil => exact ⟨[], [], rfl, by simp⟩
  | cons r rest ih =>
    obtain ⟨ps, effs, he, hm⟩ := ih
    obtain ⟨ps1, effs1, he1, hm1a, hm1b, hm1c⟩ := processReply_ok env rbase r hmk
    refine ⟨ps1 ++ ps, effs1 ++ effs, ?_, ?_⟩
    · simp only [processReplies, he1, he]
    · intro ri hri
      rcases List.mem_cons.mp hri with rfl | hri
      · exact ⟨fun h => List.mem_append_left _ (hm1a h),
          fun h1 h2 h3 => List.mem_append_left _ (hm1b h1 h2 h3),
          fun h1 vi hvi h2 h3 =>
            ⟨List.mem_append_left _ (hm1c h1 vi hvi h2 h3).1,
             fun r hr => List.mem_append_left _ ((hm1c h1 vi hvi h2 h3).2 r hr)⟩⟩
      · obtain ⟨a, b, c⟩ := hm ri hri
        exact ⟨fun h => List.mem_append_right _ (a h),
          fun h1 h2 h3 => List.mem_append_right _ (b h1 h2 h3),
          fun h1 vi hvi h2 h3 =>
            ⟨List.mem_append_right _ (c h1 vi hvi h2 h3).1,
             fun r hr => List.mem_append_right _ ((c h1 vi hvi h2 h3).2 r hr)⟩⟩

/-! ## C2 -/

/-- Counterexample to claim C2: when saving the root item's text fails, the
whole run raises (the root text save is not inside a `try`) — the reply's
directory is never created and no further operation is attempted, so a
single sub-operation failure does discard the rest of the thread. -/
theorem c2_counterexample :
    (save_parsed_thread_data envSaveFails (some pdC2) "out").1 =
      .error (.videoDownloadError .saveJsonFailed) ∧
    Eff.mkdir "out/alice/t1/replies/r1" ∉
      (save_parsed_thread_data envSaveFails (some pdC2) "out").2 := by
  constructor
  · rfl
  · decide

/-- Claim C2 (amended): provided directory creation succeeds and the root
text save succeeds (its failure is the one uncaught sub-operation), every
failure of a reply text save or of any video download — root or reply — is
caught, recorded in the error log, and processing continues: the run
returns a result, every qualifying thread video and reply video still gets
its engine invocation (also after an earlier failed download), every
id-bearing reply still gets its directory ensured, and each failed
download or reply text save leaves its log entry. -/
theorem c2_amended_partial_failure_isolation :
    ∀ (env : Env) (pd : ParsedData) (base : String),
      (∀ p, env.mkdirOk p = true) →
      (truthy pd.thread_text_content = true →
        env.saveOk (pjoin (threadPath base pd) "thread_text.json") = true) →
      ∃ ps effs, save_parsed_thread_data env (some pd) base = (.ok ps, effs) ∧
        (∀ vi ∈ pd.thread_videos, truthy vi.video_url = true →
          (pd.thread_id.getD "unknown_thread") ≠ "" →
          Eff.engineCall (vi.video_url.getD "")
            (pjoin (pjoin (threadPath base pd) "videos")
              ((pd.thread_id.getD "unknown_thread") ++ ".mp4")) ∈ effs ∧
          ∀ r, (download_video_content env (vi.video_url.getD "")
              (pd.thread_id.getD "unknown_thread")
              (pjoin (threadPath base pd) "videos")).1 =
              .error (.videoDownloadError r) →
            Eff.logError (.threadVideoFailed r) ∈ effs) ∧
        ∀ ri ∈ pd.replies,
          (truthy ri.reply_id = true →
            Eff.mkdir (pjoin (repliesBase base pd) (ri.reply_id.getD "")) ∈ effs) ∧
          (truthy ri.reply_id = true → truthy ri.reply_text_content = true →
            env.saveOk (pjoin (pjoin (repliesBase base pd) (ri.reply_id.getD ""))
              "reply_text.json") = false →
            Eff.logError (.replyTextFailed (ri.reply_id.getD "")) ∈ effs) ∧
          (truthy ri.reply_id = true →
            ∀ vi ∈ ri.reply_videos, truthy vi.video_url = true →
              (vi.tweet_id.getD (ri.reply_id.getD "")) ≠ "" →
              Eff.engineCall (vi.video_url.getD "")
                (pjoin (pjoin (pjoin (repliesBase base pd) (ri.reply_id.getD "")) "videos")
                  ((vi.tweet_id.getD (ri.reply_id.getD "")) ++ ".mp4")) ∈ effs ∧
              ∀ r, (download_video_content env (vi.video_url.getD "")
                  (vi.tweet_id.getD (ri.reply_id.getD ""))
                  (pjoin (pjoin (repliesBase base pd) (ri.reply_id.getD "")) "videos")).1 =
                  .error (.videoDownloadError r) →
                Eff.logError (.replyVideoFailed (ri.reply_id.getD "") r) ∈ effs) := by
  intro env pd base hmk hroot
  obtain ⟨rps, reffs, hre, hrm⟩ := processReplies_ok env (repliesBase base pd) hmk pd.replies
  obtain ⟨vps, veffs, hve, hvem⟩ :=
    processThreadVideos_ok env (pd.thread_id.getD "unknown_thread")
      (pjoin (threadPath base pd) "videos") hmk (pjoin_ne_empty _ _) pd.thread_videos
  simp only [threadPath, repliesBase] at hre hrm hve hvem hroot ⊢
  by_cases htext : truthy pd.thread_text_content = true
  · have hsok := hroot htext
    rcases save_json_content_cases env pd.thread_text_content
        (pjoin (pjoin (pjoin base (pd.user_screen_name.getD "unknown_user"))
          (pd.thread_id.getD "unknown_thread")) "thread_text.json") htext
        (pjoin_ne_empty _ _) with ⟨_, hsave⟩ | ⟨hsf, _⟩
    · have hsubV : ∀ x : Eff, x ∈ veffs →
          x ∈ Eff.mkdir (pjoin (pjoin base (pd.user_screen_name.getD "unknown_user"))
            (pd.thread_id.getD "unknown_thread")) ::
            (Eff.wroteJson (pjoin (pjoin (pjoin base
              (pd.user_screen_name.getD "unknown_user"))
              (pd.thread_id.getD "unknown_thread")) "thread_text.json") ::
              (veffs ++ reffs)) :=
        fun x hx => List.mem_cons_of_mem _
          (List.mem_cons_of_mem _ (List.mem_append_left _ hx))
      have hsub : ∀ x : Eff, x ∈ reffs →
          x ∈ Eff.mkdir (pjoin (pjoin base (pd.user_screen_name.getD "unknown_user"))
            (pd.thread_id.getD "unknown_thread")) ::
            (Eff.wroteJson (pjoin (pjoin (pjoin base
              (pd.user_screen_name.getD "unknown_user"))
              (pd.thread_id.getD "unknown_thread")) "thread_text.json") ::
              (veffs ++ reffs)) :=
        fun x hx => List.mem_cons_of_mem _
          (List.mem_cons_of_mem _ (List.mem_append_right _ hx))
      refine ⟨pjoin (pjoin (pjoin base (pd.user_screen_name.getD "unknown_user"))
          (pd.thread_id.getD "unknown_thread")) "thread_text.json" :: (vps ++ rps),
        Eff.mkdir (pjoin (pjoin base (pd.user_screen_name.getD "unknown_user"))
          (pd.thread_id.getD "unknown_thread")) ::
          (Eff.wroteJson (pjoin (pjoin (pjoin base (pd.user_screen_name.getD "unknown_user"))
            (pd.thread_id.getD "unknown_thread")) "thread_text.json") ::
            (veffs ++ reffs)), ?_, ?_, ?_⟩
      · simp [save_parsed_thread_data, hmk, htext, hsave, hve, hre]
      · intro vi hvi htr hne
        obtain ⟨h1, h2⟩ := hvem vi hvi htr hne
        exact ⟨hsubV _ h1, fun r hr => hsubV _ (h2 r hr)⟩
      · intro ri hri
        obtain ⟨a, b, c⟩ := hrm ri hri
        exact ⟨fun h => hsub _ (a h), fun h1 h2 h3 => hsub _ (b h1 h2 h3),
          fun h1 vi hvi h2 h3 =>
            ⟨hsub _ (c h1 vi hvi h2 h3).1,
             fun r hr => hsub _ ((c h1 vi hvi h2 h3).2 r hr)⟩⟩
    · rw [hsf] at hsok
      exact Bool.noConfusion hsok
  · have hsubV : ∀ x : Eff, x ∈ veffs →
        x ∈ Eff.mkdir (pjoin (pjoin base (pd.user_screen_name.getD "unknown_user"))
          (pd.thread_id.getD "unknown_thread")) :: (veffs ++ reffs) :=
      fun x hx => List.mem_cons_of_mem _ (List.mem_append_left _ hx)
    have hsub : ∀ x : Eff, x ∈ reffs →
        x ∈ Eff.mkdir (pjoin (pjoin base (pd.user_screen_name.getD "unknown_user"))
          (pd.thread_id.getD "unknown_thread")) :: (veffs ++ reffs) :=
      fun x hx => List.mem_cons_of_mem _ (List.mem_append_right _ hx)
    refine ⟨vps ++ rps,
      Eff.mkdir (pjoin (pjoin base (pd.user_screen_name.getD "unknown_user"))
        (pd.thread_id.getD "unknown_thread")) :: (veffs ++ reffs), ?_, ?_, ?_⟩
    · simp [save_parsed_thread_data, hmk, htext, hve, hre]
    · intro vi hvi htr hne
      obtain ⟨h1, h2⟩ := hvem vi hvi htr hne
      exact ⟨hsubV _ h1, fun r hr => hsubV _ (h2 r hr)⟩
    · intro ri hri
      obtain ⟨a, b, c⟩ := hrm ri hri
      exact ⟨fun h => hsub _ (a h), fun h1 h2 h3 => hsub _ (b h1 h2 h3),
        fun h1 vi hvi h2 h3 =>
          ⟨hsub _ (c h1 vi hvi h2 h3).1,
           fun r hr => hsub _ ((c h1 vi hvi h2 h3).2 r hr)⟩⟩

/-- Witness for the amended C2: every download fails (the engine leaves no
usable file), yet the run returns a result, both downloads are attempted,
the reply directory is still created, and each failed download leaves its
log entry. -/
theorem c2_amended_partial_failure_isolation_witness :
    ∃ ps effs, save_parsed_thread_data envDownloadFails (some pdC2w) "out" = (.ok ps, effs) ∧
      (∀ vi ∈ pdC2w.thread_videos, truthy vi.video_url = true →
        (pdC2w.thread_id.getD "unknown_thread") ≠ "" →
        Eff.engineCall (vi.video_url.getD "")
          (pjoin (pjoin (threadPath "out" pdC2w) "videos")
            ((pdC2w.thread_id.getD "unknown_thread") ++ ".mp4")) ∈ effs ∧
        ∀ r, (download_video_content envDownloadFails (vi.video_url.getD "")
            (pdC2w.thread_id.getD "unknown_thread")
            (pjoin (threadPath "out" pdC2w) "videos")).1 =
            .error (.videoDownloadError r) →
          Eff.logError (.threadVideoFailed r) ∈ effs) ∧
      ∀ ri ∈ pdC2w.replies,
        (truthy ri.reply_id = true →
          Eff.mkdir (pjoin (repliesBase "out" pdC2w) (ri.reply_id.getD "")) ∈ effs) ∧
        (truthy ri.reply_id = true → truthy ri.reply_text_content = true →
          envDownloadFails.saveOk (pjoin (pjoin (repliesBase "out" pdC2w)
            (ri.reply_id.getD "")) "reply_text.json") = false →
          Eff.logError (.replyTextFailed (ri.reply_id.getD "")) ∈ effs) ∧
        (truthy ri.reply_id = true →
          ∀ vi ∈ ri.reply_videos, truthy vi.video_url = true →
            (vi.tweet_id.getD (ri.reply_id.getD "")) ≠ "" →
            Eff.engineCall (vi.video_url.getD "")
              (pjoin (pjoin (pjoin (repliesBase "out" pdC2w) (ri.reply_id.getD "")) "videos")
                ((vi.tweet_id.getD (ri.reply_id.getD "")) ++ ".mp4")) ∈ effs ∧
            ∀ r, (download_video_content envDownloadFails (vi.video_url.getD "")
                (vi.tweet_id.getD (ri.reply_id.getD ""))
                (pjoin (pjoin (repliesBase "out" pdC2w) (ri.reply_id.getD "")) "videos")).1 =
                .error (.videoDownloadError r) →
              Eff.logError (.replyVideoFailed (ri.reply_id.getD "") r) ∈ effs) :=
  c2_amended_partial_failure_isolation envDownloadFails pdC2w "out"
    (fun _ => rfl) (fun _ => rfl)

/-! ## C8 -/

/-- Claim C8: a reply whose id is missing or empty is skipped entirely — its
processing performs no directory creation, no write and no download, only
the recorded skip entry — and all other replies in the sequence are still
processed (their directories are still ensured). -/
theorem c8_missing_id_skipped :
    (∀ (env : Env) (rbase : String) (ri : ReplyInfo), truthy ri.reply_id = false →
      processReply env rbase ri = (.ok [], [Eff.logWarning .replySkippedNoId])) ∧
    (∀ (env : Env) (rbase : String) (rs : List ReplyInfo),
      (∀ p, env.mkdirOk p = true) →
      ∃ ps effs, processReplies env rbase rs = (.ok ps, effs) ∧
        ∀ ri ∈ rs, truthy ri.reply_id = true →
          Eff.mkdir (pjoin rbase (ri.reply_id.getD "")) ∈ effs) := by
  constructor
  · intro env rbase ri h
    simp [processReply, h]
  · intro env rbase rs hmk
    obtain ⟨ps, effs, he, hm⟩ := processReplies_ok env rbase hmk rs
    exact ⟨ps, effs, he, fun ri hri h => (hm ri hri).1 h⟩

/-- Witness for C8: a concrete id-less reply is skipped with only the
warning entry, and in a list containing it the later reply is still
processed. -/
theorem c8_missing_id_skipped_witness :
    processReply envAllOk "b" riNoId = (.ok [], [Eff.logWarning .replySkippedNoId]) ∧
    ∃ ps effs, processReplies envAllOk "b" c8List = (.ok ps, effs) ∧
      ∀ ri ∈ c8List, truthy ri.reply_id = true →
        Eff.mkdir (pjoin "b" (ri.reply_id.getD "")) ∈ effs :=
  ⟨c8_missing_id_skipped.1 envAllOk "b" riNoId (by decide),
   c8_missing_id_skipped.2 envAllOk "b" c8List (fun _ => rfl)⟩

/-! ## C3 -/

theorem processThreadVideos_paths (env : Env) (tid path : String) :
    ∀ (vis : List VideoInfo) (ps : List String) (effs : List Eff),
      processThreadVideos env tid path vis = (.ok ps, effs) →
      ∀ p ∈ ps, p = pjoin path (tid ++ ".mp4") := by
  intro vis
  induction vis with
  | nil =>
    intro ps effs h p hp
    simp only [processThreadVideos] at h
    injection h with ha hb
    injection ha with ha2
    subst ha2
    exact absurd hp (List.not_mem_nil p)
  | cons vi rest ih =>
    intro ps effs h p hp
    by_cases hc : (truthy vi.video_url && (tid != "")) = true
    · rcases hd : download_video_content env (vi.video_url.getD "") tid path with ⟨res, deffs⟩
      rcases hrest : processThreadVideos env tid path rest with ⟨res2, effs2⟩
      cases res with
      | ok q =>
        cases res2 with
        | ok ps2 =>
          have hq := download_video_content_ok_path env _ tid path q deffs hd
          simp [processThreadVideos, hc, hd, hrest] at h
          obtain ⟨h1, h2⟩ := h
          subst h1
          rcases List.mem_cons.mp hp with rfl | hp2
          · exact hq
          · exact ih ps2 effs2 hrest p hp2
        | error e2 => simp [processThreadVideos, hc, hd, hrest] at h
      | error e =>
        cases e with
        | videoDownloadError r =>
          cases res2 with
          | ok ps2 =>
            simp [processThreadVideos, hc, hd, hrest] at h
            obtain ⟨h1, h2⟩ := h
            subst h1
            exact ih ps2 effs2 hrest p hp
          | error e2 => simp [processThreadVideos, hc, hd, hrest] at h
        | validationError => simp [processThreadVideos, hc, hd] at h
        | scrapingError => simp [processThreadVideos, hc, hd] at h
    · simp only [processThreadVideos, if_neg hc] at h
      exact ih ps effs h p hp

theorem processReplyVideos_paths (env : Env) (rid path : String) :
    ∀ (vis : List VideoInfo) (ps : List String) (effs : List Eff),
      processReplyVideos env rid path vis = (.ok ps, effs) →
      ∀ p ∈ ps, ∃ vi ∈ vis, p = pjoin path ((vi.tweet_id.getD rid) ++ ".mp4") := by
  intro vis
  induction vis with
  | nil =>
    intro ps effs h p hp
    simp only [processReplyVideos] at h
    injection h with ha hb
    injection ha with ha2
    subst ha2
    exact absurd hp (List.not_mem_nil p)
  | cons vi rest ih =>
    intro ps effs h p hp
    by_cases hc : (truthy vi.video_url && ((vi.tweet_id.getD rid) != "")) = true
    · rcases hd : download_video_content env (vi.video_url.getD "")
          (vi.tweet_id.getD rid) path with ⟨res, deffs⟩
      rcases hrest : processReplyVideos env rid path rest with ⟨res2, effs2⟩
      cases res with
      | ok q =>
        cases res2 with
        | ok ps2 =>
          have hq := download_video_content_ok_path env _ (vi.tweet_id.getD rid) path q deffs hd
          simp [processReplyVideos, hc, hd, hrest] at h
          obtain ⟨h1, h2⟩ := h
          subst h1
          rcases List.mem_cons.mp hp with rfl | hp2
          · exact ⟨vi, List.mem_cons_self vi rest, hq⟩
          · obtain ⟨vj, hvj, he⟩ := ih ps2 effs2 hrest p hp2
            exact ⟨vj, List.mem_cons_of_mem vi hvj, he⟩
        | error e2 => simp [processReplyVideos, hc, hd, hrest] at h
      | error e =>
        cases e with
        | videoDownloadError r =>
          cases res2 with
          | ok ps2 =>
            simp [processReplyVideos, hc, hd, hrest] at h
            obtain ⟨h1, h2⟩ := h
            subst h1
            obtain ⟨vj, hvj, he⟩ := ih ps2 effs2 hrest p hp
            exact ⟨vj, List.mem_cons_of_mem vi hvj, he⟩
          | error e2 => simp [processReplyVideos, hc, hd, hrest] at h
        | validationError => simp [processReplyVideos, hc, hd] at h
        | scrapingError => simp [processReplyVideos, hc, hd] at h
    · simp only [processReplyVideos, if_neg hc] at h
      obtain ⟨vj, hvj, he⟩ := ih ps effs h p hp
      exact ⟨vj, List.mem_cons_of_mem vi hvj, he⟩

theorem processReply_paths (env : Env) (rbase : String) (ri : ReplyInfo)
    (ps : List String) (effs : List Eff)
    (h : processReply env rbase ri = (.ok ps, effs)) :
    ∀ p ∈ ps,
      p = pjoin (pjoin rbase (ri.reply_id.getD "")) "reply_text.json" ∨
      ∃ vi ∈ ri.reply_videos,
        p = pjoin (pjoin (pjoin rbase (ri.reply_id.getD "")) "videos")
              ((vi.tweet_id.getD (ri.reply_id.getD "")) ++ ".mp4") := by
  intro p hp
  by_cases hid : truthy ri.reply_id = true
  · by_cases hmk2 : env.mkdirOk (pjoin rbase (ri.reply_id.getD "")) = true
    · rcases hv : processReplyVideos env (ri.reply_id.getD "")
          (pjoin (pjoin rbase (ri.reply_id.getD "")) "videos") ri.reply_videos
          with ⟨vres, veffs⟩
      by_cases htext : truthy ri.reply_text_content = true
      · rcases hsv : save_json_content env ri.reply_text_content
            (pjoin (pjoin rbase (ri.reply_id.getD "")) "reply_text.json")
            with ⟨sres, seffs⟩
        cases sres with
        | ok u =>
          cases vres with
          | ok vps =>
            simp [processReply, hid, hmk2, htext, hsv, hv] at h
            obtain ⟨h1, h2⟩ := h
            subst h1
            rcases List.mem_cons.mp hp with rfl | hp2
            · exact Or.inl rfl
            · exact Or.inr (processReplyVideos_paths env _ _ ri.reply_videos vps veffs hv p hp2)
          | error e2 => simp [processReply, hid, hmk2, htext, hsv, hv] at h
        | error e =>
          cases e with
          | videoDownloadError r =>
            cases vres with
            | ok vps =>
              simp [processReply, hid, hmk2, htext, hsv, hv] at h
              obtain ⟨h1, h2⟩ := h
              subst h1
              exact Or.inr (processReplyVideos_paths env _ _ ri.reply_videos vps veffs hv p hp)
            | error e2 => simp [processReply, hid, hmk2, htext, hsv, hv] at h
          | validationError => simp [processReply, hid, hmk2, htext, hsv] at h
          | scrapingError => simp [processReply, hid, hmk2, htext, hsv] at h
      · cases vres with
        | ok vps =>
          simp [processReply, hid, hmk2, htext, hv] at h
          obtain ⟨h1, h2⟩ := h
          subst h1
          exact Or.inr (processReplyVideos_paths env _ _ ri.reply_videos vps veffs hv p hp)
        | error e2 => simp [processReply, hid, hmk2, htext, hv] at h
    · simp [processReply, hid, hmk2] at h
  · simp [processReply, hid] at h
    obtain ⟨h1, h2⟩ := h
    subst h1
    exact absurd hp (List.not_mem_nil p)

theorem processReplies_paths (env : Env) (rbase : String) :
    ∀ (rs : List ReplyInfo) (ps : List String) (effs : List Eff),
      processReplies env rbase rs = (.ok ps, effs) →
      ∀ p ∈ ps, ∃ ri ∈ rs,
        p = pjoin (pjoin rbase (ri.reply_id.getD "")) "reply_text.json" ∨
        ∃ vi ∈ ri.reply_videos,
          p = pjoin (pjoin (pjoin rbase (ri.reply_id.getD "")) "videos")
                ((vi.tweet_id.getD (ri.reply_id.getD "")) ++ ".mp4") := by
  intro rs
  induction rs with
  | nil =>
    intro ps effs h p hp
    simp only [processReplies] at h
    injection h with ha hb
    injection ha with ha2
    subst ha2
    exact absurd hp (List.not_mem_nil p)
  | cons r rest ih =>
    intro ps effs h p hp
    rcases h1 : processReply env rbase r with ⟨res1, effs1⟩
    rcases h2 : processReplies env rbase rest with ⟨res2, effs2⟩
    cases res1 with
    | error e => simp [processReplies, h1] at h
    | ok ps1 =>
      cases res2 with
      | error e => simp [processReplies, h1, h2] at h
      | ok ps2 =>
        simp [processReplies, h1, h2] at h
        obtain ⟨ha, hb⟩ := h
        subst ha
        rcases List.mem_append.mp hp with hp1 | hp2
        · exact ⟨r, List.mem_cons_self r rest,
            processReply_paths env rbase r ps1 effs1 h1 p hp1⟩
        · obtain ⟨ri, hri, hd⟩ := ih ps2 effs2 h2 p hp2
          exact ⟨ri, List.mem_cons_of_mem r hri, hd⟩

/-- Counterexample to claim C3: for a reply whose video record carries a
`tweet_id` different from the reply's own id, the video is saved as
`{tweet_id}.mp4`, not `{reply_id}.mp4` — the run's one saved file is at a
non-canonical name. -/
theorem c3_counterexample :
    (save_parsed_thread_data envAllOk (some pdC3) "out").1 =
      .ok ["out/alice/t1/replies/r1/videos/zzz.mp4"] ∧
    ("out/alice/t1/replies/r1/videos/zzz.mp4" : String) ≠
      "out/alice/t1/replies/r1/videos/r1.mp4" := by
  constructor
  · rfl
  · decide

/-- Claim C3 (amended): every file a run saves is at one of the canonical
locations — `{thread_path}/thread_text.json`,
`{thread_path}/videos/{thread_id}.mp4`,
`{thread_path}/replies/{reply_id}/reply_text.json`, or
`{thread_path}/replies/{reply_id}/videos/{fid}.mp4` where `fid` is the
video record's `tweet_id` field, defaulting to the reply's own id when that
field is missing (so a reply video's filename is its own id exactly when
the record carries no different `tweet_id`). -/
theorem c3_amended_canonical_paths :
    ∀ (env : Env) (pd : ParsedData) (base : String) (ps : List String) (effs : List Eff),
      save_parsed_thread_data env (some pd) base = (.ok ps, effs) →
      ∀ p ∈ ps,
        p = pjoin (threadPath base pd) "thread_text.json" ∨
        p = pjoin (pjoin (threadPath base pd) "videos")
              ((pd.thread_id.getD "unknown_thread") ++ ".mp4") ∨
        ∃ ri ∈ pd.replies,
          p = pjoin (pjoin (repliesBase base pd) (ri.reply_id.getD "")) "reply_text.json" ∨
          ∃ vi ∈ ri.reply_videos,
            p = pjoin (pjoin (pjoin (repliesBase base pd) (ri.reply_id.getD "")) "videos")
                  ((vi.tweet_id.getD (ri.reply_id.getD "")) ++ ".mp4") := by
  intro env pd base ps effs h p hp
  simp only [threadPath, repliesBase]
  by_cases hmk2 : env.mkdirOk (pjoin (pjoin base (pd.user_screen_name.getD "unknown_user"))
      (pd.thread_id.getD "unknown_thread")) = true
  · rcases hv : processThreadVideos env (pd.thread_id.getD "unknown_thread")
        (pjoin (pjoin (pjoin base (pd.user_screen_name.getD "unknown_user"))
          (pd.thread_id.getD "unknown_thread")) "videos") pd.thread_videos
        with ⟨vres, veffs⟩
    rcases hr : processReplies env
        (pjoin (pjoin (pjoin base (pd.user_screen_name.getD "unknown_user"))
          (pd.thread_id.getD "unknown_thread")) "replies") pd.replies
        with ⟨rres, reffs⟩
    by_cases htext : truthy pd.thread_text_content = true
    · rcases hsv : save_json_content env pd.thread_text_content
          (pjoin (pjoin (pjoin base (pd.user_screen_name.getD "unknown_user"))
            (pd.thread_id.getD "unknown_thread")) "thread_text.json")
          with ⟨sres, seffs⟩
      cases sres with
      | ok u =>
        cases vres with
        | ok vps =>
          cases rres with
          | ok rps =>
            simp [save_parsed_thread_data, hmk2, htext, hsv, hv, hr] at h
            obtain ⟨ha, hb⟩ := h
            subst ha
            rcases List.mem_cons.mp hp with rfl | hp2
            · exact Or.inl rfl
            · rcases List.mem_append.mp hp2 with hpv | hpr
              · exact Or.inr (Or.inl (processThreadVideos_paths env _ _
                  pd.thread_videos vps veffs hv p hpv))
              · exact Or.inr (Or.inr (processReplies_paths env _
                  pd.replies rps reffs hr p hpr))
          | error e => simp [save_parsed_thread_data, hmk2, htext, hsv, hv, hr] at h
        | error e => simp [save_parsed_thread_data, hmk2, htext, hsv, hv] at h
      | error e => simp [save_parsed_thread_data, hmk2, htext, hsv] at h
    · cases vres with
      | ok vps =>
        cases rres with
        | ok rps =>
          simp [save_parsed_thread_data, hmk2, htext, hv, hr] at h
          obtain ⟨ha, hb⟩ := h
          subst ha
          rcases List.mem_append.mp hp with hpv | hpr
          · exact Or.inr (Or.inl (processThreadVideos_paths env _ _
              pd.thread_videos vps veffs hv p hpv))
          · exact Or.inr (Or.inr (processReplies_paths env _
              pd.replies rps reffs hr p hpr))
        | error e => simp [save_parsed_thread_data, hmk2, htext, hv, hr] at h
      | error e => simp [save_parsed_thread_data, hmk2, htext, hv] at h
  · simp [save_parsed_thread_data, hmk2] at h

/-- Witness for the amended C3 on the concrete run that produced a
`tweet_id`-named reply video. -/
theorem c3_amended_canonical_paths_witness :
    ("out/alice/t1/replies/r1/videos/zzz.mp4" : String) =
        pjoin (threadPath "out" pdC3) "thread_text.json" ∨
      "out/alice/t1/replies/r1/videos/zzz.mp4" =
        pjoin (pjoin (threadPath "out" pdC3) "videos")
          ((pdC3.thread_id.getD "unknown_thread") ++ ".mp4") ∨
      ∃ ri ∈ pdC3.replies,
        "out/alice/t1/replies/r1/videos/zzz.mp4" =
          pjoin (pjoin (repliesBase "out" pdC3) (ri.reply_id.getD "")) "reply_text.json" ∨
        ∃ vi ∈ ri.reply_videos,
          "out/alice/t1/replies/r1/videos/zzz.mp4" =
            pjoin (pjoin (pjoin (repliesBase "out" pdC3) (ri.reply_id.getD "")) "videos")
              ((vi.tweet_id.getD (ri.reply_id.getD "")) ++ ".mp4") :=
  c3_amended_canonical_paths envAllOk pdC3 "out"
    ["out/alice/t1/replies/r1/videos/zzz.mp4"]
    [Eff.mkdir "out/alice/t1", Eff.mkdir "out/alice/t1/replies/r1",
     Eff.mkdir "out/alice/t1/replies/r1/videos",
     Eff.engineCall "http://v" "out/alice/t1/replies/r1/videos/zzz.mp4"] rfl
    "out/alice/t1/replies/r1/videos/zzz.mp4" (by simp)

end XThreadDL
